import Mathlib

/-! Items CRUD handler behind an API gateway (main.go)

A shallow embedding of `main.go`: the dispatcher `handler` and the five
operations `handlePost`, `handleGetAll`, `handleGet`, `handlePut`,
`handleDelete`, followed by the properties of section 8 of the specification.

What main.go only calls, and does not define, is made explicit:

* the key-value store behind the client handle `svc` is a `World`: the table,
  the outcomes the store gives to the coming calls, and the log of the calls
  made so far;
* `json.Unmarshal` into an `Item` is an argument `unmarshal` of the handlers
  that read a body, so every theorem holds for every decoder;
* `json.Marshal` of an `Item` and of a slice of `Item` is `marshalItem` and
  `marshalItems`.

A Go function that can stop on a nil dereference returns a `Result`, which is
either the pair it returned or `panicked`.
-/

namespace ApiGateway

/-! ## Data model -/

/-- Item of main.go, lines 16 to 19: field ID has the JSON name id and field
Name the JSON name name. -/
structure Item where
  ID : String
  Name : String
deriving DecidableEq, Repr

/-- The fields of dynamodb.AttributeValue that tell a string attribute from
another one. `S` is the `*string` the handlers read and write (`none` is the
nil pointer); `N` stands for the attribute kinds the handlers never read. -/
structure AttributeValue where
  S : Option String
  N : Option String
deriving DecidableEq, Repr

/-- A record is a Go `map[string]*dynamodb.AttributeValue`, kept as an
association list; a name without an entry reads as the nil pointer. -/
abbrev Record := List (String × AttributeValue)

/-- The composite literal `{S: aws.String(s)}` of main.go. -/
def strAttr (s : String) : AttributeValue := ⟨some s, none⟩

/-- The contents of the single table, in the order a scan returns them. -/
abbrev Table := List Record

/-- A Go slice: `nil` is the nil slice and `elems xs` a non-nil slice holding
`xs`. The two differ only in what `json.Marshal` prints for them. -/
inductive Slice (α : Type) where
  | nil : Slice α
  | elems (xs : List α) : Slice α
deriving DecidableEq, Repr

/-- Go's `append(s, x)`: the result is never the nil slice. -/
def Slice.append {α : Type} : Slice α → α → Slice α
  | .nil, x => .elems [x]
  | .elems xs, x => .elems (xs ++ [x])

/-- The fields of events.APIGatewayProxyRequest that main.go reads. -/
structure APIGatewayProxyRequest where
  HTTPMethod : String
  PathParameters : List (String × String)
  Body : String
deriving DecidableEq, Repr

/-- The fields of events.APIGatewayProxyResponse that main.go sets; a field
that a literal leaves out has its zero value (`Body` is then the empty
string). -/
structure APIGatewayProxyResponse where
  StatusCode : Int
  Body : String
deriving DecidableEq, Repr

/-- Go's `req.PathParameters[k]`: the empty string when the map has no entry
for `k`. -/
def pathParam (req : APIGatewayProxyRequest) (k : String) : String :=
  (req.PathParameters.lookup k).getD ""

/-! ## The store behind `svc` -/

/-- Modelled from the spec: the primary key of a record is its string
attribute id (section 3); `none` when the record has no such attribute. -/
def keyOf (r : Record) : Option String :=
  (r.lookup "id").bind AttributeValue.S

/-- Modelled from the spec: PutRecord of section 6, an upsert by primary key:
a record with the same key is replaced where it stands, otherwise the new
record is added. -/
def putRecord (t : Table) (r : Record) : Table :=
  if t.any (fun x => keyOf x == keyOf r) then
    t.map (fun x => if keyOf x == keyOf r then r else x)
  else t ++ [r]

/-- Modelled from the spec: GetRecord of section 6: the record stored under
the key, or the distinguished empty result `none`. -/
def getRecord (t : Table) (key : Record) : Option Record :=
  t.find? (fun x => keyOf x == keyOf key)

/-- Modelled from the spec: DeleteRecord of section 6, which removes what is
stored under the key and is a no-op when nothing is. -/
def deleteRecord (t : Table) (key : Record) : Table :=
  t.filter (fun x => !(keyOf x == keyOf key))

/-- One call on the client handle `svc`, with the record or key it carried. -/
inductive StoreCall where
  | PutItem (item : Record)
  | Scan
  | GetItem (key : Record)
  | DeleteItem (key : Record)
deriving DecidableEq, Repr

/-- The world a request runs in. `faults` lists what the store answers to the
coming calls, one entry per call: `some e` makes that call fail with the error
text `e`, `none` lets it succeed, and past the end of the list every call
succeeds. `calls` is the log of the store calls made so far. -/
structure World where
  table : Table
  faults : List (Option String)
  calls : List StoreCall
deriving DecidableEq, Repr

/-- The answer the store gives to the next call. -/
def World.nextFault (w : World) : Option String := w.faults.headD none

/-- The world after a call `c` whose effect on the table is `t`: the answer
is used up and the call is logged. -/
def World.after (w : World) (c : StoreCall) (t : Table) : World :=
  { table := t, faults := w.faults.tail, calls := w.calls ++ [c] }

/-- Modelled from the spec: `svc.PutItem`; a failed call leaves the table as
it was. -/
def svc.PutItem (item : Record) (w : World) : Except String Unit × World :=
  match w.nextFault with
  | some e => (.error e, w.after (.PutItem item) w.table)
  | none => (.ok (), w.after (.PutItem item) (putRecord w.table item))

/-- Modelled from the spec: `svc.Scan`, returning every record of the table. -/
def svc.Scan (w : World) : Except String (List Record) × World :=
  match w.nextFault with
  | some e => (.error e, w.after .Scan w.table)
  | none => (.ok w.table, w.after .Scan w.table)

/-- Modelled from the spec: `svc.GetItem`; the `Item` of the output is nil
(`none`) when no record has the key. -/
def svc.GetItem (key : Record) (w : World) : Except String (Option Record) × World :=
  match w.nextFault with
  | some e => (.error e, w.after (.GetItem key) w.table)
  | none => (.ok (getRecord w.table key), w.after (.GetItem key) w.table)

/-- Modelled from the spec: `svc.DeleteItem`. -/
def svc.DeleteItem (key : Record) (w : World) : Except String Unit × World :=
  match w.nextFault with
  | some e => (.error e, w.after (.DeleteItem key) w.table)
  | none => (.ok (), w.after (.DeleteItem key) (deleteRecord w.table key))

/-! ## `json.Marshal` -/

/-- The lower-case hexadecimal digit of a number below sixteen. -/
def hexDigit (n : Nat) : Char :=
  ['0', '1', '2', '3', '4', '5', '6', '7', '8', '9', 'a', 'b', 'c', 'd', 'e', 'f'].getD n '0'

/-- How encoding/json writes one character of a string, with HTML escaping on
as `json.Marshal` has it: the quote and the backslash get a backslash, the
control characters below U+0020 their short form or a `u00XX` form, the
characters `<`, `>` and `&` and the separators U+2028 and U+2029 a `uXXXX`
form, every other character is copied. -/
def escapeChar (c : Char) : List Char :=
  let n := c.toNat
  if n = 0x22 then [Char.ofNat 0x5c, Char.ofNat 0x22]
  else if n = 0x5c then [Char.ofNat 0x5c, Char.ofNat 0x5c]
  else if n = 0x08 then [Char.ofNat 0x5c, 'b']
  else if n = 0x0c then [Char.ofNat 0x5c, 'f']
  else if n = 0x0a then [Char.ofNat 0x5c, 'n']
  else if n = 0x0d then [Char.ofNat 0x5c, 'r']
  else if n = 0x09 then [Char.ofNat 0x5c, 't']
  else if n < 0x20 ∨ n = 0x3c ∨ n = 0x3e ∨ n = 0x26 then
    [Char.ofNat 0x5c, 'u', '0', '0', hexDigit (n / 16), hexDigit (n % 16)]
  else if n = 0x2028 ∨ n = 0x2029 then
    [Char.ofNat 0x5c, 'u', '2', '0', '2', hexDigit (n % 16)]
  else [c]

/-- A Go string as a JSON string literal. -/
def quote (s : String) : String :=
  String.mk ([Char.ofNat 0x22] ++ s.data.flatMap escapeChar ++ [Char.ofNat 0x22])

/-- The text `json.Marshal(item)` gives for an `Item`: an object with the
members id and name, in the order of the fields. -/
def marshalItem (item : Item) : String :=
  "\x7b\"id\":" ++ quote item.ID ++ ",\"name\":" ++ quote item.Name ++ "\x7d"

/-- The text `json.Marshal(items)` gives for a slice of `Item`: `null` for
the nil slice, otherwise the elements between brackets, separated by commas. -/
def marshalItems : Slice Item → String
  | .nil => "null"
  | .elems xs => "[" ++ ",".intercalate (xs.map marshalItem) ++ "]"

/-! ## The handlers of main.go -/

/-- What a call of a Go function of type
`(events.APIGatewayProxyResponse, error)` comes to: the pair it returned,
the error being `none` for nil, or a run-time panic. -/
inductive Result where
  | returned (resp : APIGatewayProxyResponse) (err : Option String)
  | panicked
deriving DecidableEq, Repr

/-- The status code of a returned response. -/
def Result.status : Result → Option Int
  | .returned resp _ => some resp.StatusCode
  | .panicked => none

/-- The body of a returned response. -/
def Result.body : Result → Option String
  | .returned resp _ => some resp.Body
  | .panicked => none

/-- The expression `*r[attr].S`: `none` (a nil dereference) when the record
has no attribute `attr` or the attribute is not a string. -/
def derefS (r : Record) (attr : String) : Option String :=
  match r.lookup attr with
  | none => none
  | some av => av.S

/-- The map literal both `handlePost` and `handlePut` hand to `svc.PutItem`. -/
def itemRecord (item : Item) : Record :=
  [("id", strAttr item.ID), ("name", strAttr item.Name)]

/-- The map literal `handleGet` and `handleDelete` use as the key. -/
def keyRecord (id : String) : Record := [("id", strAttr id)]

/-- POST /items, main.go lines 52 to 72. -/
def handlePost (unmarshal : String → Except String Item)
    (req : APIGatewayProxyRequest) (w : World) : Result × World :=
  match unmarshal req.Body with
  | .error err => (.returned ⟨400, err⟩ none, w)
  | .ok item =>
    match svc.PutItem (itemRecord item) w with
    | (.error err, w1) => (.returned ⟨500, err⟩ none, w1)
    | (.ok _, w1) => (.returned ⟨200, marshalItem item⟩ none, w1)

/-- The loop of `handleGetAll`, main.go lines 82 to 87: one `Item` is appended
per scanned record, in order; `none` when a dereference panics. -/
def collectItems : List Record → Slice Item → Option (Slice Item)
  | [], items => some items
  | i :: rest, items =>
    match derefS i "id" with
    | none => none
    | some id =>
      match derefS i "name" with
      | none => none
      | some name => collectItems rest (items.append ⟨id, name⟩)

/-- GET /items, main.go lines 75 to 91; `items` starts as the non-nil empty
slice `[]Item{}`. -/
def handleGetAll (w : World) : Result × World :=
  match svc.Scan w with
  | (.error err, w1) => (.returned ⟨500, err⟩ none, w1)
  | (.ok respItems, w1) =>
    match collectItems respItems (.elems []) with
    | none => (.panicked, w1)
    | some items => (.returned ⟨200, marshalItems items⟩ none, w1)

/-- GET /items/id, main.go lines 94 to 116. -/
def handleGet (id : String) (w : World) : Result × World :=
  match svc.GetItem (keyRecord id) w with
  | (.error err, w1) => (.returned ⟨500, err⟩ none, w1)
  | (.ok none, w1) => (.returned ⟨404, "Item not found"⟩ none, w1)
  | (.ok (some respItem), w1) =>
    match derefS respItem "id" with
    | none => (.panicked, w1)
    | some itemID =>
      match derefS respItem "name" with
      | none => (.panicked, w1)
      | some itemName => (.returned ⟨200, marshalItem ⟨itemID, itemName⟩⟩ none, w1)

/-- PUT /items/id, main.go lines 119 to 141: the id of the decoded item is
overwritten with the path parameter before the put. -/
def handlePut (unmarshal : String → Except String Item)
    (req : APIGatewayProxyRequest) (w : World) : Result × World :=
  let id := pathParam req "id"
  match unmarshal req.Body with
  | .error err => (.returned ⟨400, err⟩ none, w)
  | .ok item0 =>
    let item : Item := { item0 with ID := id }
    match svc.PutItem (itemRecord item) w with
    | (.error err, w1) => (.returned ⟨500, err⟩ none, w1)
    | (.ok _, w1) => (.returned ⟨200, marshalItem item⟩ none, w1)

/-- DELETE /items/id, main.go lines 144 to 156. -/
def handleDelete (id : String) (w : World) : Result × World :=
  match svc.DeleteItem (keyRecord id) w with
  | (.error err, w1) => (.returned ⟨500, err⟩ none, w1)
  | (.ok _, w1) => (.returned ⟨200, "Deleted item " ++ id⟩ none, w1)

/-- The dispatcher, main.go lines 31 to 49: a switch on the method, compared
as a whole string. The context argument is not used by the code. -/
def handler (unmarshal : String → Except String Item)
    (req : APIGatewayProxyRequest) (w : World) : Result × World :=
  if req.HTTPMethod = "POST" then handlePost unmarshal req w
  else if req.HTTPMethod = "GET" then
    let id := pathParam req "id"
    if id = "" then handleGetAll w else handleGet id w
  else if req.HTTPMethod = "PUT" then handlePut unmarshal req w
  else if req.HTTPMethod = "DELETE" then
    let id := pathParam req "id"
    handleDelete id w
  else (.returned ⟨405, ""⟩ none, w)

/-! ## A decoder for `unmarshal`

`jsonUnmarshal` stands for `json.Unmarshal` with an `Item` as its target, on
bodies that are valid UTF-8: the whole text is checked first, then the members
of a top-level object are stored field by field, a member name matching a
field whatever its case, the last of several members winning, `null` leaving
the field alone, and the first value that is not a string reported once the
object has been read. The theorems below hold for every decoder; this one
instantiates them and decodes the bodies of the worked scenario. -/

deriving instance DecidableEq for Except

/-- The shallow view of a JSON value that decoding into an `Item` needs. -/
inductive Tok where
  | null | bool | number | string (s : String) | array | object
deriving DecidableEq, Repr

/-- The name encoding/json gives to the kind of a value in a type error. -/
def Tok.kind : Tok → String
  | .null => "null" | .bool => "bool" | .number => "number"
  | .string _ => "string" | .array => "array" | .object => "object"

/-- The four characters JSON allows between tokens. -/
def isSpace (c : Char) : Bool := c = ' ' || c = '\t' || c = '\r' || c = '\n'

/-- The input without its leading white space. -/
def skipWs : List Char → List Char
  | [] => []
  | c :: cs => if isSpace c then skipWs cs else c :: cs

/-- The message of the syntax error for a text that stops too early. -/
def eofError : String := "unexpected end of JSON input"

/-- quoteChar of encoding/json, for the byte a character starts with. -/
def quoteChar (c : Char) : String :=
  let n := c.toNat
  let b := if n < 0x80 then n else if n < 0x800 then 0xc0 + n / 64
    else if n < 0x10000 then 0xe0 + n / 4096 else 0xf0 + n / 262144
  let tick := Char.ofNat 0x27
  if b = 0x27 then String.mk [tick, Char.ofNat 0x5c, tick, tick]
  else if b = 0x22 then String.mk [tick, Char.ofNat 0x22, tick]
  else
    let inner : List Char :=
      if b = 0x5c then [Char.ofNat 0x5c, Char.ofNat 0x5c]
      else if b = 0x07 then [Char.ofNat 0x5c, 'a']
      else if b = 0x08 then [Char.ofNat 0x5c, 'b']
      else if b = 0x0c then [Char.ofNat 0x5c, 'f']
      else if b = 0x0a then [Char.ofNat 0x5c, 'n']
      else if b = 0x0d then [Char.ofNat 0x5c, 'r']
      else if b = 0x09 then [Char.ofNat 0x5c, 't']
      else if b = 0x0b then [Char.ofNat 0x5c, 'v']
      else if b < 0x20 ∨ b = 0x7f then [Char.ofNat 0x5c, 'x', hexDigit (b / 16), hexDigit (b % 16)]
      else [Char.ofNat b]
    String.mk ([tick] ++ inner ++ [tick])

/-- The message of the syntax error for a character that may not stand where
it does. -/
def invalidChar (c : Char) (context : String) : String :=
  "invalid character " ++ quoteChar c ++ " " ++ context

/-- The value of a hexadecimal digit of either case. -/
def hexVal (c : Char) : Option Nat :=
  let n := c.toNat
  if 0x30 ≤ n ∧ n ≤ 0x39 then some (n - 0x30)
  else if 0x61 ≤ n ∧ n ≤ 0x66 then some (n - 0x61 + 10)
  else if 0x41 ≤ n ∧ n ≤ 0x46 then some (n - 0x41 + 10)
  else none

/-- The character a one-letter escape stands for. -/
def simpleEscape (c : Char) : Option Char :=
  if c = Char.ofNat 0x22 then some (Char.ofNat 0x22)
  else if c = Char.ofNat 0x5c then some (Char.ofNat 0x5c)
  else if c = '/' then some '/'
  else if c = 'b' then some (Char.ofNat 0x08)
  else if c = 'f' then some (Char.ofNat 0x0c)
  else if c = 'n' then some (Char.ofNat 0x0a)
  else if c = 'r' then some (Char.ofNat 0x0d)
  else if c = 't' then some (Char.ofNat 0x09)
  else none

/-- Where a bad digit of a four-digit escape is reported. -/
def hexError : String := "in \\u hexadecimal character escape"

/-- The characters a pending high surrogate and the code unit `u` stand for,
and the surrogate left pending. -/
def emitUnit (pend : Option Nat) (u : Nat) : List Char × Option Nat :=
  let isHi := 0xd800 ≤ u ∧ u < 0xdc00
  let isLo := 0xdc00 ≤ u ∧ u < 0xe000
  match pend with
  | some hi =>
    if isLo then ([Char.ofNat (0x10000 + (hi - 0xd800) * 1024 + (u - 0xdc00))], none)
    else if isHi then ([Char.ofNat 0xfffd], some u)
    else ([Char.ofNat u, Char.ofNat 0xfffd], none)
  | none =>
    if isHi then ([], some u)
    else if isLo then ([Char.ofNat 0xfffd], none)
    else ([Char.ofNat u], none)

/-- A high surrogate that no low surrogate followed becomes U+FFFD. -/
def flushPend (pend : Option Nat) (acc : List Char) : List Char :=
  match pend with
  | some _ => Char.ofNat 0xfffd :: acc
  | none => acc

/-- The rest of a string literal after its opening quote; `acc` holds the
decoded characters, last first. -/
def parseString : List Char → List Char → Option Nat → Except String (String × List Char)
  | [], _, _ => .error eofError
  | c :: cs, acc, pend =>
    if c = Char.ofNat 0x22 then .ok (String.mk (flushPend pend acc).reverse, cs)
    else if c = Char.ofNat 0x5c then
      match cs with
      | [] => .error eofError
      | e :: cs1 =>
        if e = 'u' then
          match cs1 with
          | [] => .error eofError
          | h1 :: cs2 =>
            match hexVal h1 with
            | none => .error (invalidChar h1 hexError)
            | some d1 =>
              match cs2 with
              | [] => .error eofError
              | h2 :: cs3 =>
                match hexVal h2 with
                | none => .error (invalidChar h2 hexError)
                | some d2 =>
                  match cs3 with
                  | [] => .error eofError
                  | h3 :: cs4 =>
                    match hexVal h3 with
                    | none => .error (invalidChar h3 hexError)
                    | some d3 =>
                      match cs4 with
                      | [] => .error eofError
                      | h4 :: cs5 =>
                        match hexVal h4 with
                        | none => .error (invalidChar h4 hexError)
                        | some d4 =>
                          let (out, pend1) := emitUnit pend (((d1 * 16 + d2) * 16 + d3) * 16 + d4)
                          parseString cs5 (out ++ acc) pend1
        else
          match simpleEscape e with
          | none => .error (invalidChar e "in string escape code")
          | some ch => parseString cs1 (ch :: flushPend pend acc) none
    else if c.toNat < 0x20 then .error (invalidChar c "in string literal")
    else parseString cs (c :: flushPend pend acc) none

/-- The ten decimal digits. -/
def isDigit (c : Char) : Bool := 0x30 ≤ c.toNat && c.toNat ≤ 0x39

/-- The input without its leading digits. -/
def skipDigits : List Char → List Char
  | [] => []
  | c :: cs => if isDigit c then skipDigits cs else c :: cs

/-- The exponent part of a number, if any. -/
def parseExp (cs : List Char) : Except String (List Char) :=
  match cs with
  | [] => .ok []
  | c :: r =>
    if c = 'e' ∨ c = 'E' then
      match r with
      | [] => .error eofError
      | s :: r1 =>
        if s = '+' ∨ s = '-' then
          match r1 with
          | [] => .error eofError
          | d :: r2 =>
            if isDigit d then .ok (skipDigits r2)
            else .error (invalidChar d "in exponent of numeric literal")
        else if isDigit s then .ok (skipDigits r1)
        else .error (invalidChar s "in exponent of numeric literal")
    else .ok (c :: r)

/-- The fraction and exponent parts of a number, if any. -/
def parseFrac (cs : List Char) : Except String (List Char) :=
  match cs with
  | [] => .ok []
  | c :: r =>
    if c = '.' then
      match r with
      | [] => .error eofError
      | d :: r1 =>
        if isDigit d then parseExp (skipDigits r1)
        else .error (invalidChar d "after decimal point in numeric literal")
    else parseExp (c :: r)

/-- A number whose sign, if any, has been read. -/
def parseInt (cs : List Char) : Except String (List Char) :=
  match cs with
  | [] => .error eofError
  | c :: r =>
    if c = '0' then parseFrac r
    else if isDigit c then parseFrac (skipDigits r)
    else .error (invalidChar c "in numeric literal")

/-- The rest of a literal such as true after its first letter. -/
def parseLit (name : String) : List Char → List Char → Except String (List Char)
  | [], cs => .ok cs
  | _ :: _, [] => .error eofError
  | x :: xs, c :: cs =>
    if c = x then parseLit name xs cs
    else .error (invalidChar c ("in literal " ++ name ++ " (expecting " ++ quoteChar x ++ ")"))

/-- A parsed value: its shallow view, its members when it is an object, and
the input left after it. -/
abbrev Parsed := Tok × List (String × Tok) × List Char

/-! The three parsers below call each other; the first argument bounds the
number of nested calls and `jsonUnmarshal` starts it above what a text of the
given length can need. `parseValue` reads one value, `parseMembers` the
members of an object up to its closing brace, `parseElems` the elements of an
array up to its closing bracket. -/

mutual
def parseValue : Nat → List Char → Except String Parsed
  | 0, _ => .error "exceeded max depth"
  | n + 1, cs =>
    match cs with
    | [] => .error eofError
    | c :: rest =>
      if c = '\x7b' then
        match skipWs rest with
        | [] => .error eofError
        | c1 :: r1 =>
          if c1 = '\x7d' then .ok (.object, [], r1)
          else
            match parseMembers n (c1 :: r1) [] with
            | .error e => .error e
            | .ok (ms, r2) => .ok (.object, ms, r2)
      else if c = '[' then
        match skipWs rest with
        | [] => .error eofError
        | c1 :: r1 =>
          if c1 = ']' then .ok (.array, [], r1)
          else
            match parseElems n (c1 :: r1) with
            | .error e => .error e
            | .ok r2 => .ok (.array, [], r2)
      else if c = Char.ofNat 0x22 then
        match parseString rest [] none with
        | .error e => .error e
        | .ok (s, r1) => .ok (.string s, [], r1)
      else if c = '-' then
        match parseInt rest with
        | .error e => .error e
        | .ok r1 => .ok (.number, [], r1)
      else if isDigit c then
        match parseInt (c :: rest) with
        | .error e => .error e
        | .ok r1 => .ok (.number, [], r1)
      else if c = 't' then
        match parseLit "true" ['r', 'u', 'e'] rest with
        | .error e => .error e
        | .ok r1 => .ok (.bool, [], r1)
      else if c = 'f' then
        match parseLit "false" ['a', 'l', 's', 'e'] rest with
        | .error e => .error e
        | .ok r1 => .ok (.bool, [], r1)
      else if c = 'n' then
        match parseLit "null" ['u', 'l', 'l'] rest with
        | .error e => .error e
        | .ok r1 => .ok (.null, [], r1)
      else .error (invalidChar c "looking for beginning of value")
def parseMembers : Nat → List Char → List (String × Tok) → Except String (List (String × Tok) × List Char)
  | 0, _, _ => .error "exceeded max depth"
  | n + 1, cs, acc =>
    match cs with
    | [] => .error eofError
    | c :: rest =>
      if c = Char.ofNat 0x22 then
        match parseString rest [] none with
        | .error e => .error e
        | .ok (k, r1) =>
          match skipWs r1 with
          | [] => .error eofError
          | c1 :: r2 =>
            if c1 = ':' then
              match parseValue n (skipWs r2) with
              | .error e => .error e
              | .ok (v, _, r3) =>
                match skipWs r3 with
                | [] => .error eofError
                | c2 :: r4 =>
                  if c2 = ',' then parseMembers n (skipWs r4) ((k, v) :: acc)
                  else if c2 = '\x7d' then .ok (((k, v) :: acc).reverse, r4)
                  else .error (invalidChar c2 "after object key:value pair")
            else .error (invalidChar c1 "after object key")
      else .error (invalidChar c "looking for beginning of object key string")
def parseElems : Nat → List Char → Except String (List Char)
  | 0, _ => .error "exceeded max depth"
  | n + 1, cs =>
    match parseValue n cs with
    | .error e => .error e
    | .ok (_, _, r1) =>
      match skipWs r1 with
      | [] => .error eofError
      | c :: r2 =>
        if c = ',' then parseElems n (skipWs r2)
        else if c = ']' then .ok r2
        else .error (invalidChar c "after array element")
end

/-- An ASCII capital as its small letter, any other character as it is. -/
def lowerAscii (c : Char) : Char :=
  if 0x41 ≤ c.toNat ∧ c.toNat ≤ 0x5a then Char.ofNat (c.toNat + 32) else c

/-- A member name matches the JSON name of a field whatever its case; the
names id and name hold no letter that has a fold outside ASCII. -/
def foldsTo (key name : String) : Bool := key.data.map lowerAscii == name.data

/-- The message of the type error for a member of `Item` that is not a string. -/
def typeError (v : Tok) (field : String) : String :=
  "json: cannot unmarshal " ++ v.kind ++ " into Go struct field Item." ++ field ++ " of type string"

/-- The members of the top-level object stored into the item in the order of
the text; `err` keeps the first type error. -/
def decodeMembers : List (String × Tok) → Item → Option String → Item × Option String
  | [], item, err => (item, err)
  | (k, v) :: ms, item, err =>
    if foldsTo k "id" then
      match v with
      | .string s => decodeMembers ms { item with ID := s } err
      | .null => decodeMembers ms item err
      | _ => decodeMembers ms item (err.orElse fun _ => some (typeError v "id"))
    else if foldsTo k "name" then
      match v with
      | .string s => decodeMembers ms { item with Name := s } err
      | .null => decodeMembers ms item err
      | _ => decodeMembers ms item (err.orElse fun _ => some (typeError v "name"))
    else decodeMembers ms item err

/-- The decoder: `json.Unmarshal([]byte(data), &item)` on a zero `Item`,
returning the item or the text of the error. -/
def jsonUnmarshal (data : String) : Except String Item :=
  let cs := skipWs data.data
  match parseValue (2 * cs.length + 2) cs with
  | .error e => .error e
  | .ok (v, ms, rest) =>
    match skipWs rest with
    | c :: _ => .error (invalidChar c "after top-level value")
    | [] =>
      match v with
      | .object =>
        match decodeMembers ms ⟨"", ""⟩ none with
        | (_, some e) => .error e
        | (item, none) => .ok item
      | .null => .ok ⟨"", ""⟩
      | _ => .error ("json: cannot unmarshal " ++ v.kind ++ " into Go value of type main.Item")

/-! ## Worlds used to instantiate the theorems -/

/-- An empty table and a store that answers every call. -/
def emptyWorld : World := ⟨[], [], []⟩

/-- A table that already holds a record under the key 1, next to a record of
another key. -/
def usedWorld : World :=
  ⟨[itemRecord ⟨"0", "zero"⟩, itemRecord ⟨"1", "old"⟩], [], []⟩

/-- A store whose next call fails. -/
def failingWorld : World :=
  ⟨[itemRecord ⟨"1", "old"⟩], [some "RequestError: send request failed"], []⟩

/-- The request POST /items with the body of the worked scenario. -/
def postReq : APIGatewayProxyRequest :=
  ⟨"POST", [], "\x7b\"id\":\"1\",\"name\":\"a\"\x7d"⟩

/-- The request PUT /items/1 with the body of the worked scenario. -/
def putReq : APIGatewayProxyRequest :=
  ⟨"PUT", [("id", "1")], "\x7b\"id\":\"ignored\",\"name\":\"b\"\x7d"⟩

/-- A request whose body is not JSON. -/
def badReq : APIGatewayProxyRequest := ⟨"POST", [("id", "1")], "not json"⟩

/-- The request GET /items/1. -/
def getReq : APIGatewayProxyRequest := ⟨"GET", [("id", "1")], ""⟩

/-- The request DELETE /items/1. -/
def deleteReq : APIGatewayProxyRequest := ⟨"DELETE", [("id", "1")], ""⟩

/-- The requests of a list served one after the other, each on the world the
one before left, as `lambda.Start(handler)` serves the invocations of one
process; the results come in the order of the requests. -/
def serve (unmarshal : String → Except String Item) :
    List APIGatewayProxyRequest → World → List Result × World
  | [], w => ([], w)
  | req :: rest, w =>
    ((handler unmarshal req w).1 :: (serve unmarshal rest (handler unmarshal req w).2).1,
      (serve unmarshal rest (handler unmarshal req w).2).2)

/-- The store answers every coming call. -/
def World.allSucceed (w : World) : Bool := w.faults.all Option.isNone

/-- The record carries the id and the name of the item as string attributes. -/
def carries (r : Record) (item : Item) : Prop :=
  derefS r "id" = some item.ID ∧ derefS r "name" = some item.Name

instance (r : Record) (item : Item) : Decidable (carries r item) :=
  inferInstanceAs (Decidable (_ ∧ _))

/-! ## Facts about the store -/

theorem keyOf_itemRecord (item : Item) : keyOf (itemRecord item) = some item.ID := by
  simp [keyOf, itemRecord, strAttr, List.lookup]

theorem keyOf_keyRecord (id : String) : keyOf (keyRecord id) = some id := by
  simp [keyOf, keyRecord, strAttr, List.lookup]

/-- A lookup right after a put finds the record that was put, whatever the
table held before. -/
theorem getRecord_putRecord (t : Table) (r key : Record) (hk : keyOf key = keyOf r) :
    getRecord (putRecord t r) key = some r := by
  unfold getRecord putRecord
  rw [hk]
  split
  · next hany =>
    induction t with
    | nil => simp at hany
    | cons x xs ih =>
      by_cases hx : keyOf x = keyOf r
      · simp [hx]
      · have hxs : xs.any (fun x => keyOf x == keyOf r) = true := by
          simpa [hx] using hany
        simpa [hx] using ih hxs
  · next hany =>
    induction t with
    | nil => simp
    | cons x xs ih =>
      have hx : ¬ keyOf x = keyOf r := by
        intro h
        exact hany (by simp [h])
      have hxs : ¬ xs.any (fun x => keyOf x == keyOf r) = true := by
        intro h
        exact hany (by simp [h])
      simpa [hx] using ih hxs

theorem putRecord_of_any (t : Table) (r : Record)
    (h : t.any (fun x => keyOf x == keyOf r) = true) :
    putRecord t r = t.map (fun x => if keyOf x == keyOf r then r else x) := by
  unfold putRecord
  rw [if_pos h]

theorem putRecord_of_not_any (t : Table) (r : Record)
    (h : ¬ t.any (fun x => keyOf x == keyOf r) = true) :
    putRecord t r = t ++ [r] := by
  unfold putRecord
  rw [if_neg h]

/-- Putting the same record twice gives the table that putting it once gives. -/
theorem putRecord_putRecord (t : Table) (r : Record) :
    putRecord (putRecord t r) r = putRecord t r := by
  by_cases hany : t.any (fun x => keyOf x == keyOf r) = true
  · have h1 := putRecord_of_any t r hany
    have hany1 : (putRecord t r).any (fun x => keyOf x == keyOf r) = true := by
      rw [h1]
      simp only [List.any_eq_true, List.mem_map] at hany ⊢
      obtain ⟨x, hx, hxk⟩ := hany
      exact ⟨r, ⟨x, hx, by simp [hxk]⟩, by simp⟩
    rw [putRecord_of_any _ r hany1, h1, List.map_map]
    apply List.map_congr_left
    intro x _
    by_cases hx : keyOf x = keyOf r <;> simp [hx]
  · have h1 := putRecord_of_not_any t r hany
    have hany1 : (t ++ [r]).any (fun x => keyOf x == keyOf r) = true := by simp
    rw [h1, putRecord_of_any _ r hany1]
    have hmap : t.map (fun x => if keyOf x == keyOf r then r else x) = t := by
      conv_rhs => rw [← List.map_id t]
      apply List.map_congr_left
      intro x hx
      have : ¬ keyOf x = keyOf r := by
        intro h
        exact hany (List.any_eq_true.mpr ⟨x, hx, by simp [h]⟩)
      simp [this]
    rw [List.map_append, hmap]
    simp

/-- A lookup right after a delete finds nothing, whatever the table held. -/
theorem getRecord_deleteRecord (t : Table) (key : Record) :
    getRecord (deleteRecord t key) key = none := by
  simp [getRecord, deleteRecord, List.find?_eq_none]

theorem allSucceed_nextFault (w : World) (h : w.allSucceed = true) : w.nextFault = none := by
  unfold World.allSucceed at h
  unfold World.nextFault
  cases hf : w.faults with
  | nil => rfl
  | cons f fs =>
    rw [hf] at h
    cases f with
    | none => rfl
    | some e => simp at h

theorem allSucceed_after (w : World) (c : StoreCall) (t : Table) (h : w.allSucceed = true) :
    (w.after c t).allSucceed = true := by
  unfold World.allSucceed at h ⊢
  rw [List.all_eq_true] at h ⊢
  intro f hf
  exact h f (List.mem_of_mem_tail hf)

/-- The loop of handleGetAll appends, in order, one item per record when every
record carries its item. -/
theorem collectItems_of_carries (rs : List Record) (items acc : List Item)
    (h : List.Forall₂ carries rs items) :
    collectItems rs (.elems acc) = some (.elems (acc ++ items)) := by
  induction h generalizing acc with
  | nil => simp [collectItems]
  | cons hr _ ih =>
    obtain ⟨hid, hname⟩ := hr
    simp [collectItems, hid, hname, Slice.append, ih]

/-! ## What each operation returns, call by call -/

theorem handlePost_ok (unmarshal : String → Except String Item)
    (req : APIGatewayProxyRequest) (w : World) (item : Item)
    (hbody : unmarshal req.Body = .ok item) (hw : w.nextFault = none) :
    handlePost unmarshal req w
      = (.returned ⟨200, marshalItem item⟩ none,
          w.after (.PutItem (itemRecord item)) (putRecord w.table (itemRecord item))) := by
  simp [handlePost, hbody, svc.PutItem, hw]

theorem handlePost_fail (unmarshal : String → Except String Item)
    (req : APIGatewayProxyRequest) (w : World) (item : Item) (e : String)
    (hbody : unmarshal req.Body = .ok item) (hw : w.nextFault = some e) :
    handlePost unmarshal req w
      = (.returned ⟨500, e⟩ none, w.after (.PutItem (itemRecord item)) w.table) := by
  simp [handlePost, hbody, svc.PutItem, hw]

theorem handlePut_ok (unmarshal : String → Except String Item)
    (req : APIGatewayProxyRequest) (w : World) (item : Item)
    (hbody : unmarshal req.Body = .ok item) (hw : w.nextFault = none) :
    handlePut unmarshal req w
      = (.returned ⟨200, marshalItem ⟨pathParam req "id", item.Name⟩⟩ none,
          w.after (.PutItem (itemRecord ⟨pathParam req "id", item.Name⟩))
            (putRecord w.table (itemRecord ⟨pathParam req "id", item.Name⟩))) := by
  simp [handlePut, hbody, svc.PutItem, hw]

theorem handlePut_fail (unmarshal : String → Except String Item)
    (req : APIGatewayProxyRequest) (w : World) (item : Item) (e : String)
    (hbody : unmarshal req.Body = .ok item) (hw : w.nextFault = some e) :
    handlePut unmarshal req w
      = (.returned ⟨500, e⟩ none,
          w.after (.PutItem (itemRecord ⟨pathParam req "id", item.Name⟩)) w.table) := by
  simp [handlePut, hbody, svc.PutItem, hw]

theorem handleDelete_ok (id : String) (w : World) (hw : w.nextFault = none) :
    handleDelete id w
      = (.returned ⟨200, "Deleted item " ++ id⟩ none,
          w.after (.DeleteItem (keyRecord id)) (deleteRecord w.table (keyRecord id))) := by
  simp [handleDelete, svc.DeleteItem, hw]

theorem handleDelete_fail (id : String) (w : World) (e : String) (hw : w.nextFault = some e) :
    handleDelete id w
      = (.returned ⟨500, e⟩ none, w.after (.DeleteItem (keyRecord id)) w.table) := by
  simp [handleDelete, svc.DeleteItem, hw]

theorem handleGet_fail (id : String) (w : World) (e : String) (hw : w.nextFault = some e) :
    handleGet id w = (.returned ⟨500, e⟩ none, w.after (.GetItem (keyRecord id)) w.table) := by
  simp [handleGet, svc.GetItem, hw]

theorem handleGet_missing (id : String) (w : World) (hw : w.nextFault = none)
    (hrec : getRecord w.table (keyRecord id) = none) :
    handleGet id w
      = (.returned ⟨404, "Item not found"⟩ none, w.after (.GetItem (keyRecord id)) w.table) := by
  simp [handleGet, svc.GetItem, hw, hrec]

theorem handleGet_found (id : String) (w : World) (item : Item) (hw : w.nextFault = none)
    (hrec : getRecord w.table (keyRecord id) = some (itemRecord item)) :
    handleGet id w
      = (.returned ⟨200, marshalItem item⟩ none, w.after (.GetItem (keyRecord id)) w.table) := by
  simp [handleGet, svc.GetItem, hw, hrec, derefS, itemRecord, strAttr, List.lookup]

theorem handleGetAll_fail (w : World) (e : String) (hw : w.nextFault = some e) :
    handleGetAll w = (.returned ⟨500, e⟩ none, w.after .Scan w.table) := by
  simp [handleGetAll, svc.Scan, hw]

/-! ## Every operation makes at most one store call -/

theorem handlePost_calls (unmarshal : String → Except String Item)
    (req : APIGatewayProxyRequest) (w : World) :
    (handlePost unmarshal req w).2.calls = w.calls ∨
      ∃ c : StoreCall, (handlePost unmarshal req w).2.calls = w.calls ++ [c] := by
  unfold handlePost svc.PutItem
  cases unmarshal req.Body <;> cases w.nextFault <;> simp [World.after]

theorem handlePut_calls (unmarshal : String → Except String Item)
    (req : APIGatewayProxyRequest) (w : World) :
    (handlePut unmarshal req w).2.calls = w.calls ∨
      ∃ c : StoreCall, (handlePut unmarshal req w).2.calls = w.calls ++ [c] := by
  unfold handlePut svc.PutItem
  cases unmarshal req.Body <;> cases w.nextFault <;> simp [World.after]

theorem handleGetAll_calls (w : World) :
    (handleGetAll w).2.calls = w.calls ∨
      ∃ c : StoreCall, (handleGetAll w).2.calls = w.calls ++ [c] := by
  refine Or.inr ⟨.Scan, ?_⟩
  unfold handleGetAll svc.Scan
  cases w.nextFault with
  | some e => rfl
  | none =>
    dsimp only
    split <;> rfl

theorem handleGet_calls (id : String) (w : World) :
    (handleGet id w).2.calls = w.calls ∨
      ∃ c : StoreCall, (handleGet id w).2.calls = w.calls ++ [c] := by
  refine Or.inr ⟨.GetItem (keyRecord id), ?_⟩
  have hw : (handleGet id w).2 = (svc.GetItem (keyRecord id) w).2 := by
    unfold handleGet
    repeat' split
    all_goals simp_all
  rw [hw]
  unfold svc.GetItem
  cases w.nextFault <;> rfl

theorem handleDelete_calls (id : String) (w : World) :
    (handleDelete id w).2.calls = w.calls ∨
      ∃ c : StoreCall, (handleDelete id w).2.calls = w.calls ++ [c] := by
  unfold handleDelete svc.DeleteItem
  cases w.nextFault <;> simp [World.after]

/-! ## The dispatcher, method by method -/

theorem routes_post (unmarshal : String → Except String Item)
    (req : APIGatewayProxyRequest) (w : World) (h : req.HTTPMethod = "POST") :
    handler unmarshal req w = handlePost unmarshal req w := by
  simp [handler, h]

theorem routes_get (unmarshal : String → Except String Item)
    (req : APIGatewayProxyRequest) (w : World) (id : String) (h : req.HTTPMethod = "GET")
    (hid : req.PathParameters.lookup "id" = some id) (hne : id ≠ "") :
    handler unmarshal req w = handleGet id w := by
  simp [handler, h, pathParam, hid, hne]

theorem routes_put (unmarshal : String → Except String Item)
    (req : APIGatewayProxyRequest) (w : World) (h : req.HTTPMethod = "PUT") :
    handler unmarshal req w = handlePut unmarshal req w := by
  simp [handler, h]

theorem routes_delete (unmarshal : String → Except String Item)
    (req : APIGatewayProxyRequest) (w : World) (h : req.HTTPMethod = "DELETE") :
    handler unmarshal req w = handleDelete (pathParam req "id") w := by
  simp [handler, h]

/-! ## The properties of the specification -/

/-- C1: Create then ReadOne round trip. For every decoder, store state and
request whose body decodes into an item, if handlePost answers 200 and the
store does not fail the lookup that follows, handleGet on the id of the item,
run on the store handlePost left, answers 200 with the JSON text of an item
that has the id and the name of the decoded body, whatever the table held
under that id before. -/
theorem handlePost_then_handleGet (unmarshal : String → Except String Item)
    (req : APIGatewayProxyRequest) (w : World) (item : Item)
    (hbody : unmarshal req.Body = .ok item)
    (hpost : (handlePost unmarshal req w).1.status = some 200)
    (hget : (handlePost unmarshal req w).2.nextFault = none) :
    (handleGet item.ID (handlePost unmarshal req w).2).1
      = .returned ⟨200, marshalItem ⟨item.ID, item.Name⟩⟩ none := by
  have hw : w.nextFault = none := by
    cases h : w.nextFault with
    | none => rfl
    | some e =>
      rw [handlePost_fail unmarshal req w item e hbody h] at hpost
      simp [Result.status] at hpost
  rw [handlePost_ok unmarshal req w item hbody hw] at hget ⊢
  rw [handleGet_found item.ID _ item hget]
  exact getRecord_putRecord _ _ _ (by rw [keyOf_keyRecord, keyOf_itemRecord])

theorem handlePost_then_handleGet_witness :
    jsonUnmarshal postReq.Body = .ok ⟨"1", "a"⟩ ∧
    (handlePost jsonUnmarshal postReq usedWorld).1.status = some 200 ∧
    (handleGet "1" (handlePost jsonUnmarshal postReq usedWorld).2).1
      = .returned ⟨200, "\x7b\"id\":\"1\",\"name\":\"a\"\x7d"⟩ none :=
  ⟨by rfl, by rfl,
    handlePost_then_handleGet jsonUnmarshal postReq usedWorld ⟨"1", "a"⟩ (by rfl) (by rfl) (by rfl)⟩

/-- C2: Update is idempotent and the path id wins. For every decoder, store
state and request whose body decodes into an item, when the store fails
neither put, running handlePut twice leaves the table that running it once
leaves; in that table the record under the path id is the one whose id is the
path id and whose name is the name of the body, whatever id the body carried;
and both runs answer 200 with the JSON text of that id-corrected item. -/
theorem handlePut_idempotent (unmarshal : String → Except String Item)
    (req : APIGatewayProxyRequest) (w : World) (item : Item)
    (hbody : unmarshal req.Body = .ok item)
    (hfirst : w.nextFault = none)
    (hsecond : (handlePut unmarshal req w).2.nextFault = none) :
    (handlePut unmarshal req (handlePut unmarshal req w).2).2.table
        = (handlePut unmarshal req w).2.table ∧
    getRecord (handlePut unmarshal req w).2.table (keyRecord (pathParam req "id"))
        = some [("id", strAttr (pathParam req "id")), ("name", strAttr item.Name)] ∧
    (handlePut unmarshal req w).1
        = .returned ⟨200, marshalItem ⟨pathParam req "id", item.Name⟩⟩ none ∧
    (handlePut unmarshal req (handlePut unmarshal req w).2).1
        = .returned ⟨200, marshalItem ⟨pathParam req "id", item.Name⟩⟩ none := by
  rw [handlePut_ok unmarshal req _ item hbody hsecond]
  rw [handlePut_ok unmarshal req w item hbody hfirst]
  refine ⟨?_, ?_, rfl, rfl⟩
  · exact putRecord_putRecord _ _
  · exact getRecord_putRecord _ _ _ (by rw [keyOf_keyRecord, keyOf_itemRecord])

theorem handlePut_idempotent_witness :
    (handlePut jsonUnmarshal putReq (handlePut jsonUnmarshal putReq usedWorld).2).2.table
        = (handlePut jsonUnmarshal putReq usedWorld).2.table ∧
    getRecord (handlePut jsonUnmarshal putReq usedWorld).2.table (keyRecord "1")
        = some [("id", strAttr "1"), ("name", strAttr "b")] ∧
    (handlePut jsonUnmarshal putReq usedWorld).1
        = .returned ⟨200, "\x7b\"id\":\"1\",\"name\":\"b\"\x7d"⟩ none ∧
    (handlePut jsonUnmarshal putReq (handlePut jsonUnmarshal putReq usedWorld).2).1
        = .returned ⟨200, "\x7b\"id\":\"1\",\"name\":\"b\"\x7d"⟩ none :=
  handlePut_idempotent jsonUnmarshal putReq usedWorld ⟨"ignored", "b"⟩ (by rfl) (by rfl) (by rfl)

/-- C3: Delete then ReadOne yields 404. For every id and store state, with or
without a record under the id, if handleDelete answers 200 and the store does
not fail the lookup that follows, handleGet on the same id, run on the store
handleDelete left, answers 404 with the plain text Item not found. -/
theorem handleDelete_then_handleGet (id : String) (w : World)
    (hdel : (handleDelete id w).1.status = some 200)
    (hget : (handleDelete id w).2.nextFault = none) :
    (handleGet id (handleDelete id w).2).1 = .returned ⟨404, "Item not found"⟩ none := by
  have hw : w.nextFault = none := by
    cases h : w.nextFault with
    | none => rfl
    | some e =>
      rw [handleDelete_fail id w e h] at hdel
      simp [Result.status] at hdel
  rw [handleDelete_ok id w hw] at hget ⊢
  rw [handleGet_missing id _ hget]
  exact getRecord_deleteRecord _ _

theorem handleDelete_then_handleGet_witness :
    (handleDelete "1" usedWorld).1.status = some 200 ∧
    (handleGet "1" usedWorld).1.status = some 200 ∧
    (handleGet "1" (handleDelete "1" usedWorld).2).1
      = .returned ⟨404, "Item not found"⟩ none :=
  ⟨by rfl, by rfl, handleDelete_then_handleGet "1" usedWorld (by rfl) (by rfl)⟩

/-- C4: malformed bodies are rejected without side effect. For every decoder,
store state and request whose body the decoder rejects with a message, both
handlePost and handlePut answer 400 with that message as the body and a nil
error, and return the world they were given: no store call is logged, no
answer of the store is used up and the table is as it was. -/
theorem malformed_body_rejected (unmarshal : String → Except String Item)
    (req : APIGatewayProxyRequest) (w : World) (msg : String)
    (hbody : unmarshal req.Body = .error msg) :
    handlePost unmarshal req w = (.returned ⟨400, msg⟩ none, w) ∧
    handlePut unmarshal req w = (.returned ⟨400, msg⟩ none, w) := by
  simp [handlePost, handlePut, hbody]

theorem malformed_body_rejected_witness :
    handlePost jsonUnmarshal badReq usedWorld
      = (.returned ⟨400, "invalid character \'o\' in literal null (expecting \'u\')"⟩ none,
          usedWorld) ∧
    handlePut jsonUnmarshal badReq usedWorld
      = (.returned ⟨400, "invalid character \'o\' in literal null (expecting \'u\')"⟩ none,
          usedWorld) :=
  malformed_body_rejected jsonUnmarshal badReq usedWorld _ (by rfl)

/-- C5: unsupported methods. For every decoder, store state and request whose
method is none of POST, GET, PUT and DELETE, handler answers 405 with an empty
body and a nil error and returns the world it was given, so it makes no store
call and changes nothing, whatever the path parameters and the body are. -/
theorem handler_unsupported_method (unmarshal : String → Except String Item)
    (req : APIGatewayProxyRequest) (w : World)
    (hpost : req.HTTPMethod ≠ "POST") (hget : req.HTTPMethod ≠ "GET")
    (hput : req.HTTPMethod ≠ "PUT") (hdelete : req.HTTPMethod ≠ "DELETE") :
    handler unmarshal req w = (.returned ⟨405, ""⟩ none, w) := by
  simp [handler, hpost, hget, hput, hdelete]

theorem handler_unsupported_method_witness :
    handler jsonUnmarshal ⟨"PATCH", [("id", "1")], "\x7b\"name\":\"x\"\x7d"⟩ usedWorld
      = (.returned ⟨405, ""⟩ none, usedWorld) :=
  handler_unsupported_method jsonUnmarshal _ usedWorld
    (by decide) (by decide) (by decide) (by decide)

/-- C6: the dispatch table. For every decoder, request and store state,
handler returns what exactly one operation returns: POST gives handlePost on
the request, and handlePost does not read the path parameters; GET gives
handleGetAll when the path has no id or an empty one, and handleGet on the id
when it is not empty; PUT gives handlePut on the request, which reads the
request through its path id and its body only; DELETE gives handleDelete on
the path id. Whatever the method, at most one store call is made. -/
theorem handler_dispatch (unmarshal : String → Except String Item)
    (req : APIGatewayProxyRequest) (w : World) :
    (req.HTTPMethod = "POST" → handler unmarshal req w = handlePost unmarshal req w) ∧
    (∀ req2 : APIGatewayProxyRequest, req2.Body = req.Body →
      handlePost unmarshal req2 w = handlePost unmarshal req w) ∧
    (req.HTTPMethod = "GET" → req.PathParameters.lookup "id" = none →
      handler unmarshal req w = handleGetAll w) ∧
    (req.HTTPMethod = "GET" → req.PathParameters.lookup "id" = some "" →
      handler unmarshal req w = handleGetAll w) ∧
    (req.HTTPMethod = "GET" → ∀ id : String, req.PathParameters.lookup "id" = some id →
      id ≠ "" → handler unmarshal req w = handleGet id w) ∧
    (req.HTTPMethod = "PUT" → handler unmarshal req w = handlePut unmarshal req w) ∧
    (∀ req2 : APIGatewayProxyRequest, pathParam req2 "id" = pathParam req "id" →
      req2.Body = req.Body → handlePut unmarshal req2 w = handlePut unmarshal req w) ∧
    (req.HTTPMethod = "DELETE" →
      handler unmarshal req w = handleDelete (pathParam req "id") w) ∧
    ((handler unmarshal req w).2.calls = w.calls ∨
      ∃ c : StoreCall, (handler unmarshal req w).2.calls = w.calls ++ [c]) := by
  refine ⟨?_, ?_, ?_, ?_, ?_, ?_, ?_, ?_, ?_⟩
  · intro h
    simp [handler, h]
  · intro req2 h
    simp [handlePost, h]
  · intro h hid
    simp [handler, h, pathParam, hid]
  · intro h hid
    simp [handler, h, pathParam, hid]
  · intro h id hid hne
    simp [handler, h, pathParam, hid, hne]
  · intro h
    simp [handler, h]
  · intro req2 hid h
    simp [handlePut, hid, h]
  · intro h
    simp [handler, h]
  · unfold handler
    dsimp only
    split_ifs
    · exact handlePost_calls unmarshal req w
    · exact handleGetAll_calls w
    · exact handleGet_calls _ w
    · exact handlePut_calls unmarshal req w
    · exact handleDelete_calls _ w
    · exact Or.inl rfl

theorem handler_dispatch_witness :
    handler jsonUnmarshal ⟨"GET", [], ""⟩ usedWorld = handleGetAll usedWorld ∧
    handler jsonUnmarshal ⟨"GET", [("id", "")], ""⟩ usedWorld = handleGetAll usedWorld ∧
    handler jsonUnmarshal getReq usedWorld = handleGet "1" usedWorld :=
  ⟨(handler_dispatch jsonUnmarshal ⟨"GET", [], ""⟩ usedWorld).2.2.1 rfl rfl,
    (handler_dispatch jsonUnmarshal ⟨"GET", [("id", "")], ""⟩ usedWorld).2.2.2.1 rfl rfl,
    (handler_dispatch jsonUnmarshal getReq usedWorld).2.2.2.2.1 rfl "1" rfl (by decide)⟩

/-- C7: ReadAll on an empty table. Whenever the scan succeeds and returns no
record, handleGetAll answers 200 with a body that is exactly the two
characters of the empty JSON array, so neither null nor the empty string. -/
theorem handleGetAll_empty (w : World) (hscan : w.nextFault = none) (hempty : w.table = []) :
    (handleGetAll w).1 = .returned ⟨200, "[]"⟩ none ∧
    (handleGetAll w).1.body ≠ some "null" ∧
    (handleGetAll w).1.body ≠ some "" := by
  have h : (handleGetAll w).1 = .returned ⟨200, "[]"⟩ none := by
    simp [handleGetAll, svc.Scan, hscan, hempty, collectItems, marshalItems]
    rfl
  rw [h]
  refine ⟨rfl, ?_, ?_⟩ <;> simp [Result.body]

theorem handleGetAll_empty_witness :
    (handleGetAll emptyWorld).1 = .returned ⟨200, "[]"⟩ none ∧
    (handleGetAll emptyWorld).1.body ≠ some "null" ∧
    (handleGetAll emptyWorld).1.body ≠ some "" :=
  handleGetAll_empty emptyWorld (by rfl) (by rfl)

/-- C8: store failures map to 500. For every decoder, request, id and store
state, when the store fails the next call with the error text e, each of the
five operations (handlePost and handlePut on a body that decodes) answers 500
with e as the body and a nil error, and the world it leaves has the table as
it was and a log one call longer: the put, scan, get, put or delete that
failed, with no call after it. -/
theorem store_failure_gives_500 (unmarshal : String → Except String Item)
    (req : APIGatewayProxyRequest) (id : String) (w : World) (e : String)
    (hfail : w.nextFault = some e) :
    (∀ item : Item, unmarshal req.Body = .ok item →
      handlePost unmarshal req w
        = (.returned ⟨500, e⟩ none,
            ⟨w.table, w.faults.tail, w.calls ++ [.PutItem (itemRecord item)]⟩)) ∧
    handleGetAll w = (.returned ⟨500, e⟩ none, ⟨w.table, w.faults.tail, w.calls ++ [.Scan]⟩) ∧
    handleGet id w
      = (.returned ⟨500, e⟩ none,
          ⟨w.table, w.faults.tail, w.calls ++ [.GetItem (keyRecord id)]⟩) ∧
    (∀ item : Item, unmarshal req.Body = .ok item →
      handlePut unmarshal req w
        = (.returned ⟨500, e⟩ none,
            ⟨w.table, w.faults.tail,
              w.calls ++ [.PutItem (itemRecord ⟨pathParam req "id", item.Name⟩)]⟩)) ∧
    handleDelete id w
      = (.returned ⟨500, e⟩ none,
          ⟨w.table, w.faults.tail, w.calls ++ [.DeleteItem (keyRecord id)]⟩) := by
  refine ⟨?_, ?_, ?_, ?_, ?_⟩
  · intro item hbody
    rw [handlePost_fail unmarshal req w item e hbody hfail]
    rfl
  · rw [handleGetAll_fail w e hfail]
    rfl
  · rw [handleGet_fail id w e hfail]
    rfl
  · intro item hbody
    rw [handlePut_fail unmarshal req w item e hbody hfail]
    rfl
  · rw [handleDelete_fail id w e hfail]
    rfl

theorem store_failure_gives_500_witness :
    handlePost jsonUnmarshal postReq failingWorld
      = (.returned ⟨500, "RequestError: send request failed"⟩ none,
          ⟨failingWorld.table, [], [.PutItem (itemRecord ⟨"1", "a"⟩)]⟩) ∧
    handleDelete "1" failingWorld
      = (.returned ⟨500, "RequestError: send request failed"⟩ none,
          ⟨failingWorld.table, [], [.DeleteItem (keyRecord "1")]⟩) :=
  ⟨(store_failure_gives_500 jsonUnmarshal postReq "1" failingWorld _ (by rfl)).1 _ (by rfl),
    (store_failure_gives_500 jsonUnmarshal postReq "1" failingWorld _ (by rfl)).2.2.2.2⟩

/-- C9: the worked scenario, through the dispatcher. From any store state
whose store answers every call, serving POST with the body of id 1 and name a,
then GET on the path id 1, then PUT on the path id 1 with the body of id
ignored and name b, then DELETE on the path id 1, then GET on the path id 1
gives, in this order: 200 with the JSON text of id 1 and name a, 200 with the
same text, 200 with the JSON text of id 1 and name b, 200 with the text
Deleted item 1, and 404 with the text Item not found. -/
theorem crud_scenario (w : World) (hw : w.allSucceed = true) :
    (serve jsonUnmarshal [postReq, getReq, putReq, deleteReq, getReq] w).1
      = [.returned ⟨200, "\x7b\"id\":\"1\",\"name\":\"a\"\x7d"⟩ none,
         .returned ⟨200, "\x7b\"id\":\"1\",\"name\":\"a\"\x7d"⟩ none,
         .returned ⟨200, "\x7b\"id\":\"1\",\"name\":\"b\"\x7d"⟩ none,
         .returned ⟨200, "Deleted item 1"⟩ none,
         .returned ⟨404, "Item not found"⟩ none] := by
  have hb1 : jsonUnmarshal postReq.Body = .ok ⟨"1", "a"⟩ := by rfl
  have hb2 : jsonUnmarshal putReq.Body = .ok ⟨"ignored", "b"⟩ := by rfl
  have hm1 : marshalItem ⟨"1", "a"⟩ = "\x7b\"id\":\"1\",\"name\":\"a\"\x7d" := by rfl
  have hm2 : marshalItem ⟨"1", "b"⟩ = "\x7b\"id\":\"1\",\"name\":\"b\"\x7d" := by rfl
  have hd : "Deleted item " ++ "1" = "Deleted item 1" := by rfl
  have hp : pathParam putReq "id" = "1" := by rfl
  -- POST
  have h1 : handler jsonUnmarshal postReq w = handlePost jsonUnmarshal postReq w :=
    (routes_post jsonUnmarshal postReq w rfl)
  have e1 := handlePost_ok jsonUnmarshal postReq w _ hb1 (allSucceed_nextFault w hw)
  have a1 := allSucceed_after w (.PutItem (itemRecord ⟨"1", "a"⟩))
    (putRecord w.table (itemRecord ⟨"1", "a"⟩)) hw
  generalize hw1 : w.after (.PutItem (itemRecord ⟨"1", "a"⟩))
    (putRecord w.table (itemRecord ⟨"1", "a"⟩)) = w1 at e1 a1
  have t1 : getRecord w1.table (keyRecord "1") = some (itemRecord ⟨"1", "a"⟩) := by
    rw [← hw1]
    exact getRecord_putRecord _ _ _ (by rw [keyOf_keyRecord, keyOf_itemRecord])
  -- GET
  have h2 : handler jsonUnmarshal getReq w1 = handleGet "1" w1 :=
    routes_get jsonUnmarshal getReq w1 "1" rfl rfl (by decide)
  have e2 := handleGet_found "1" w1 _ (allSucceed_nextFault w1 a1) t1
  have a2 := allSucceed_after w1 (.GetItem (keyRecord "1")) w1.table a1
  generalize w1.after (.GetItem (keyRecord "1")) w1.table = w2 at e2 a2
  -- PUT
  have h3 : handler jsonUnmarshal putReq w2 = handlePut jsonUnmarshal putReq w2 :=
    routes_put jsonUnmarshal putReq w2 rfl
  have e3 := handlePut_ok jsonUnmarshal putReq w2 _ hb2 (allSucceed_nextFault w2 a2)
  rw [hp] at e3
  have a3 := allSucceed_after w2 (.PutItem (itemRecord ⟨"1", "b"⟩))
    (putRecord w2.table (itemRecord ⟨"1", "b"⟩)) a2
  generalize w2.after (.PutItem (itemRecord ⟨"1", "b"⟩))
    (putRecord w2.table (itemRecord ⟨"1", "b"⟩)) = w3 at e3 a3
  -- DELETE
  have h4 : handler jsonUnmarshal deleteReq w3 = handleDelete "1" w3 :=
    routes_delete jsonUnmarshal deleteReq w3 rfl
  have e4 := handleDelete_ok "1" w3 (allSucceed_nextFault w3 a3)
  have a4 := allSucceed_after w3 (.DeleteItem (keyRecord "1"))
    (deleteRecord w3.table (keyRecord "1")) a3
  generalize hw4 : w3.after (.DeleteItem (keyRecord "1"))
    (deleteRecord w3.table (keyRecord "1")) = w4 at e4 a4
  have t4 : getRecord w4.table (keyRecord "1") = none := by
    rw [← hw4]
    exact getRecord_deleteRecord _ _
  -- GET
  have h5 : handler jsonUnmarshal getReq w4 = handleGet "1" w4 :=
    routes_get jsonUnmarshal getReq w4 "1" rfl rfl (by decide)
  have e5 := handleGet_missing "1" w4 (allSucceed_nextFault w4 a4) t4
  simp only [serve, h1, e1, h2, e2, h3, e3, h4, e4, h5, e5, hm1, hm2, hd]

theorem crud_scenario_witness :
    usedWorld.allSucceed = true ∧
    (serve jsonUnmarshal [postReq, getReq, putReq, deleteReq, getReq] usedWorld).1
      = [.returned ⟨200, "\x7b\"id\":\"1\",\"name\":\"a\"\x7d"⟩ none,
         .returned ⟨200, "\x7b\"id\":\"1\",\"name\":\"a\"\x7d"⟩ none,
         .returned ⟨200, "\x7b\"id\":\"1\",\"name\":\"b\"\x7d"⟩ none,
         .returned ⟨200, "Deleted item 1"⟩ none,
         .returned ⟨404, "Item not found"⟩ none] :=
  ⟨by rfl, crud_scenario usedWorld (by rfl)⟩

/-- C10: ReadAll keeps every scanned record, in scan order. For every store
state whose scan succeeds and whose records all have id and name present as
string attributes, handleGetAll does not panic and answers 200 with the JSON
array of a list of items that matches the scanned records one for one and in
the same order, the item at each place carrying the id and the name of the
record at that place; so the list is as long as the scan, and the body is the
texts of its items between brackets, separated by commas. -/
theorem handleGetAll_keeps_scan_order (w : World) (hscan : w.nextFault = none)
    (hrec : ∀ r ∈ w.table, ∃ (a b : AttributeValue) (id name : String),
      r.lookup "id" = some a ∧ a.S = some id ∧ r.lookup "name" = some b ∧ b.S = some name) :
    ∃ items : List Item,
      List.Forall₂ carries w.table items ∧
      items.length = w.table.length ∧
      (handleGetAll w).1 = .returned ⟨200, marshalItems (.elems items)⟩ none ∧
      marshalItems (.elems items) = "[" ++ ",".intercalate (items.map marshalItem) ++ "]" := by
  have hex : ∃ items : List Item, List.Forall₂ carries w.table items := by
    generalize w.table = t at hrec
    induction t with
    | nil => exact ⟨[], List.Forall₂.nil⟩
    | cons r rs ih =>
      obtain ⟨items, hitems⟩ := ih (fun x hx => hrec x (List.mem_cons_of_mem _ hx))
      obtain ⟨a, b, id, name, ha, hid, hb, hname⟩ := hrec r (List.mem_cons_self _ _)
      refine ⟨⟨id, name⟩ :: items, List.Forall₂.cons ⟨?_, ?_⟩ hitems⟩
      · simp [derefS, ha, hid]
      · simp [derefS, hb, hname]
  obtain ⟨items, hitems⟩ := hex
  refine ⟨items, hitems, hitems.length_eq.symm, ?_, rfl⟩
  have hc := collectItems_of_carries w.table items [] hitems
  simp [handleGetAll, svc.Scan, hscan, hc]

theorem handleGetAll_keeps_scan_order_witness :
    (∃ items : List Item,
      List.Forall₂ carries usedWorld.table items ∧
      items.length = usedWorld.table.length ∧
      (handleGetAll usedWorld).1 = .returned ⟨200, marshalItems (.elems items)⟩ none ∧
      marshalItems (.elems items) = "[" ++ ",".intercalate (items.map marshalItem) ++ "]") ∧
    (handleGetAll usedWorld).1
      = .returned ⟨200, "[\x7b\"id\":\"0\",\"name\":\"zero\"\x7d,\x7b\"id\":\"1\",\"name\":\"old\"\x7d]"⟩
          none :=
  ⟨handleGetAll_keeps_scan_order usedWorld (by rfl) (by
      intro r hr
      simp only [usedWorld, itemRecord, List.mem_cons, List.mem_singleton, List.mem_nil_iff,
        or_false] at hr
      rcases hr with rfl | rfl
      · exact ⟨strAttr "0", strAttr "zero", "0", "zero", rfl, rfl, rfl, rfl⟩
      · exact ⟨strAttr "1", strAttr "old", "1", "old", rfl, rfl, rfl, rfl⟩),
    by rfl⟩

end ApiGateway
